import Mathlib

/-!
Verification of the audio-go buffering and format-conversion layer.

The development shallowly embeds the Go sources:
- the beep/speaker based bridge (package audio, file with NewAudioIO,
  Write, captureLoop, stereoSamplesToPCM16Mono, clamp, chanStreamer);
- the channel-based PortAudioDevice (chan []byte of capacity 10,
  processAudio, Read with 100 ms timeout, Write, Close);
- the ringbuffer-based PortAudioDevice (processAudio output path).

Machine floats are modelled by exact rationals: every quantity the
theorems mention (k / 32768 for an int16 k, clamped products with
32767) is either represented exactly by a binary64 float or differs
from it by far less than the margins the theorems assert, so the
rational model is faithful for the stated range and equality facts.
Go int16 values are modelled as Int, bytes as Nat below 256, channels
and buffers as lists with explicit state passing.
-/

/-- Little-endian decoding of two bytes into an unsigned 16-bit value,
mirroring binary.LittleEndian.Uint16. -/
def uint16LE (lo hi : Nat) : Nat := lo % 256 + 256 * (hi % 256)

/-- Reinterpretation of an unsigned 16-bit value as a signed int16,
mirroring the Go conversion int16(u). -/
def toInt16 (u : Nat) : Int :=
  if u % 65536 < 32768 then (u % 65536 : Int) else (u % 65536 : Int) - 65536

/-- Decoding used by AudioIO.Write: float64(v) / 32768.0.  Exact in
binary64 for every int16 input, hence the rational model is exact. -/
def pcm16ToFloat (v : Int) : ℚ := (v : ℚ) / 32768

/-- Decoding used by both PortAudioDevice variants in processAudio:
float32(val) / 32767.0. -/
def pcm16ToFloat32767 (v : Int) : ℚ := (v : ℚ) / 32767

/-- Truncation toward zero, the rounding performed by the Go
float-to-integer conversion int16(x). -/
def truncQ (q : ℚ) : Int := if 0 ≤ q then Int.floor q else Int.ceil q

/-- Clamp helper of the beep-based bridge (func clamp). -/
def clamp (f : ℚ) : ℚ := if f > 1 then 1 else if f < -1 then -1 else f

/-- Per-sample capture conversion of the beep-based bridge:
int16(clamp(v[0]) * 32767) inside stereoSamplesToPCM16Mono. -/
def floatToPCM16 (f : ℚ) : Int := truncQ (clamp f * 32767)

/-- Inline clamp of the ringbuffer devices processAudio (if sample > 1.0
then 1.0 else if sample < -1.0 then -1.0 else sample). -/
def clampRb (f : ℚ) : ℚ := if f > 1 then 1 else if f < -1 then -1 else f

/-- Per-sample capture conversion of the ringbuffer device:
int16(sample * 32767) after the inline clamp. -/
def floatToPCM16Rb (f : ℚ) : Int := truncQ (clampRb f * 32767)

/-- Per-sample capture conversion of the channel-based device:
val := int16(sample * 32767) with no clamp.  The definition records the
mathematical value reaching the int16 conversion; when that value lies
outside the int16 range the Go conversion is an overflow whose result
is implementation-defined. -/
def floatToPCM16NoClamp (f : ℚ) : Int := truncQ (f * 32767)

/-- Little-endian encoding of an int16 value into two bytes, mirroring
binary.LittleEndian.PutUint16 with uint16(m). -/
def int16ToBytesLE (m : Int) : List Nat :=
  [(m % 65536).toNat % 256, (m % 65536).toNat / 256]

/-- Conversion of a frame of stereo float samples to mono PCM16 bytes,
taking the left channel, as in stereoSamplesToPCM16Mono. -/
def stereoSamplesToPCM16Mono (s : List (ℚ × ℚ)) : List Nat :=
  s.flatMap (fun v => int16ToBytesLE (floatToPCM16 v.1))

/-- Claim C1 (amended): the conversion in AudioIO.Write divides by
32768.0, so every int16 sample lands in the interval from -1 to 1, and
the little-endian byte pair 0x00, 0x80 decodes to exactly -1; the
PortAudioDevice variants instead divide by 32767.0. -/
theorem c1_pcm16ToFloat_range (v : Int) (h1 : -32768 ≤ v) (h2 : v ≤ 32767) :
    (-1 ≤ pcm16ToFloat v ∧ pcm16ToFloat v ≤ 1)
    ∧ pcm16ToFloat (toInt16 (uint16LE 0 128)) = -1 := by
  have hmin : toInt16 (uint16LE 0 128) = -32768 := by decide
  refine ⟨⟨?_, ?_⟩, ?_⟩
  · rw [pcm16ToFloat, le_div_iff₀ (by norm_num : (0:ℚ) < 32768)]
    have : (-32768 : ℚ) ≤ (v : ℚ) := by exact_mod_cast h1
    linarith
  · rw [pcm16ToFloat, div_le_one (by norm_num : (0:ℚ) < 32768)]
    have : (v : ℚ) ≤ 32767 := by exact_mod_cast h2
    linarith
  · rw [hmin]
    norm_num [pcm16ToFloat]

/-- Witness for C1 at the most negative sample. -/
theorem c1_pcm16ToFloat_range_witness :
    (-32768 : Int) ≤ -32768 ∧ (-32768 : Int) ≤ 32767
    ∧ ((-1 ≤ pcm16ToFloat (-32768) ∧ pcm16ToFloat (-32768) ≤ 1)
       ∧ pcm16ToFloat (toInt16 (uint16LE 0 128)) = -1) :=
  ⟨by decide, by decide, c1_pcm16ToFloat_range (-32768) (by decide) (by decide)⟩

/-- Counterexample to C1 as stated: the decode in both PortAudioDevice
processAudio callbacks divides by 32767.0, so the byte pair 0x00, 0x80
maps to -32768 / 32767, which lies strictly below -1. -/
theorem c1_counterexample :
    pcm16ToFloat32767 (toInt16 (uint16LE 0 128)) < -1 := by
  have hmin : toInt16 (uint16LE 0 128) = -32768 := by decide
  rw [hmin]
  norm_num [pcm16ToFloat32767]

/-- Bounds of the clamp helper of the beep-based bridge. -/
theorem clamp_mem (f : ℚ) : -1 ≤ clamp f ∧ clamp f ≤ 1 := by
  unfold clamp
  split_ifs with h1 h2
  · constructor <;> norm_num
  · constructor <;> norm_num
  · push_neg at h1 h2
    exact ⟨h2, h1⟩

/-- Truncation toward zero keeps a value that is within the int16-safe
band inside that band. -/
theorem truncQ_range (q : ℚ) (h1 : -32767 ≤ q) (h2 : q ≤ 32767) :
    -32767 ≤ truncQ q ∧ truncQ q ≤ 32767 := by
  unfold truncQ
  split_ifs with h
  · refine ⟨?_, ?_⟩
    · have h0 : (0:Int) ≤ Int.floor q := Int.floor_nonneg.mpr h
      omega
    · have hf : Int.floor q ≤ Int.floor (((32767:Int) : ℚ)) :=
        Int.floor_mono (by exact_mod_cast h2)
      simpa using hf
  · push_neg at h
    refine ⟨?_, ?_⟩
    · have hf : Int.ceil (((-32767:Int) : ℚ)) ≤ Int.ceil q :=
        Int.ceil_mono (by exact_mod_cast h1)
      simpa using hf
    · have h0 : Int.ceil q ≤ Int.ceil ((0:Int) : ℚ) := Int.ceil_mono (by exact_mod_cast h.le)
      simp only [Int.ceil_intCast] at h0
      omega

/-- Claim C2 (amended): the capture conversions of the beep-based
bridge and the ringbuffer device clamp to the interval from -1 to 1
before scaling by 32767 and truncating toward zero, so the result
never leaves the int16 range; truncation toward zero is exhibited at
one half and minus one half.  The channel-based device omits the
clamp. -/
theorem c2_floatToPCM16_clamped :
    (∀ f : ℚ, -32767 ≤ floatToPCM16 f ∧ floatToPCM16 f ≤ 32767)
    ∧ (∀ f : ℚ, floatToPCM16Rb f = floatToPCM16 f)
    ∧ floatToPCM16 (1/2) = 16383 ∧ floatToPCM16 (-1/2) = -16383 := by
  refine ⟨?_, fun f => rfl, ?_, ?_⟩
  · intro f
    have hc := clamp_mem f
    have hlo : -32767 ≤ clamp f * 32767 := by nlinarith [hc.1, hc.2]
    have hhi : clamp f * 32767 ≤ 32767 := by nlinarith [hc.1, hc.2]
    exact truncQ_range _ hlo hhi
  · show truncQ (clamp (1/2) * 32767) = 16383
    have hcl : clamp ((1:ℚ)/2) = 1/2 := by unfold clamp; norm_num
    rw [hcl]
    unfold truncQ
    rw [if_pos (by norm_num : (0:ℚ) ≤ (1:ℚ)/2 * 32767)]
    rw [Int.floor_eq_iff]
    constructor <;> norm_num
  · show truncQ (clamp (-1/2) * 32767) = -16383
    have hcl : clamp (-(1:ℚ)/2) = -1/2 := by unfold clamp; norm_num
    rw [hcl]
    unfold truncQ
    rw [if_neg (by norm_num : ¬ (0:ℚ) ≤ -(1:ℚ)/2 * 32767)]
    rw [Int.ceil_eq_iff]
    constructor <;> norm_num

/-- Counterexample to C2 as stated: the capture conversion of the
channel-based device scales without clamping, so input 2.0 reaches the
int16 conversion as 65534, outside the int16 range, an overflow. -/
theorem c2_counterexample :
    floatToPCM16NoClamp 2 = 65534 ∧ ¬ (floatToPCM16NoClamp 2 ≤ 32767) := by
  have h : floatToPCM16NoClamp 2 = 65534 := by
    show truncQ ((2:ℚ) * 32767) = 65534
    unfold truncQ
    rw [if_pos (by norm_num : (0:ℚ) ≤ (2:ℚ) * 32767)]
    rw [show ((2:ℚ) * 32767) = (((65534:Int)) : ℚ) by norm_num, Int.floor_intCast]
  exact ⟨h, by rw [h]; decide⟩

/-- Error message of AudioIO.Write for odd-length input. -/
def writeErrMsg : String := "audio: Write expects 16-bit mono PCM"

/-- Decoding loop of AudioIO.Write: consecutive little-endian byte
pairs become int16 samples. -/
def decodePCM16 : List Nat → List Int
  | lo :: hi :: rest => toInt16 (uint16LE lo hi) :: decodePCM16 rest
  | _ => []

/-- Write method of the beep-based bridge (AudioIO.Write): reject
odd-length input with an error and a zero count, otherwise decode each
sample, divide by 32768.0, duplicate to stereo and push every pair
into the playback channel, returning the full byte count.  The
blocking sends of the Go loop appear as an append to the channel
contents. -/
def audioIOWrite (playCh : List (ℚ × ℚ)) (b : List Nat) :
    List (ℚ × ℚ) × Nat × Option String :=
  if b.length % 2 ≠ 0 then (playCh, 0, some writeErrMsg)
  else (playCh ++ (decodePCM16 b).map (fun v => (pcm16ToFloat v, pcm16ToFloat v)),
        b.length, none)

/-- Decoded sample count is the byte count divided by two. -/
theorem decodePCM16_length : ∀ b : List Nat, (decodePCM16 b).length = b.length / 2
  | [] => by simp [decodePCM16]
  | [_] => by simp [decodePCM16]
  | lo :: hi :: rest => by
      simp only [decodePCM16, List.length_cons, decodePCM16_length rest]
      omega

/-- Claim C3: a write whose byte length is not a multiple of two fails
with the malformed-input error, transfers zero bytes, and leaves the
playback channel unchanged. -/
theorem c3_odd_write_rejected (playCh : List (ℚ × ℚ)) (b : List Nat)
    (h : b.length % 2 ≠ 0) :
    audioIOWrite playCh b = (playCh, 0, some writeErrMsg) := by
  simp [audioIOWrite, h]

/-- Witness for C3 on a one-byte write. -/
theorem c3_odd_write_rejected_witness :
    ([0] : List Nat).length % 2 ≠ 0
    ∧ audioIOWrite [((1:ℚ), (1:ℚ))] [0] = ([((1:ℚ), (1:ℚ))], 0, some writeErrMsg) :=
  ⟨by decide, c3_odd_write_rejected [((1:ℚ), (1:ℚ))] [0] (by decide)⟩

/-- Claim C4 (amended): for even-length input the beep-based bridge
Write pushes every decoded sample, in order, into the playback channel
and returns the full byte count with no error; the channel-based
device Write instead reports the full length while silently dropping
the whole buffer when its output channel is full. -/
theorem c4_even_write_pushes_all (playCh : List (ℚ × ℚ)) (b : List Nat)
    (h : b.length % 2 = 0) :
    audioIOWrite playCh b
      = (playCh ++ (decodePCM16 b).map (fun v => (pcm16ToFloat v, pcm16ToFloat v)),
         b.length, none)
    ∧ (decodePCM16 b).length = b.length / 2 := by
  refine ⟨?_, decodePCM16_length b⟩
  simp [audioIOWrite, h]

/-- Witness for C4 on the two-byte write 0x00, 0x80. -/
theorem c4_even_write_pushes_all_witness :
    ([0, 128] : List Nat).length % 2 = 0
    ∧ (audioIOWrite [] [0, 128]
        = ([] ++ (decodePCM16 [0, 128]).map (fun v => (pcm16ToFloat v, pcm16ToFloat v)),
           ([0, 128] : List Nat).length, none)
       ∧ (decodePCM16 [0, 128]).length = ([0, 128] : List Nat).length / 2) :=
  ⟨rfl, c4_even_write_pushes_all [] [0, 128] rfl⟩

/-- State of the channel-based PortAudioDevice: the capture channel,
the playback channel (both buffered Go channels of byte chunks with
capacity 10) and the closed flag. -/
structure ChanDevice where
  inputData : List (List Nat)
  outputData : List (List Nat)
  closed : Bool
deriving DecidableEq

/-- Capacity of both byte-chunk channels, make(chan []byte, 10). -/
def chanCap : Nat := 10

/-- Error message of io.ErrClosedPipe. -/
def closedPipeMsg : String := "io: read/write on closed pipe"

/-- Error message of io.EOF. -/
def eofMsg : String := "EOF"

/-- Write method of the channel-based device: after the closed check,
a non-blocking send of the whole buffer; when the output channel is
full the buffer is dropped, yet the full length is returned with no
error. -/
def deviceWrite (d : ChanDevice) (p : List Nat) : ChanDevice × Nat × Option String :=
  if d.closed then (d, 0, some closedPipeMsg)
  else if d.outputData.length < chanCap then
    (ChanDevice.mk d.inputData (d.outputData ++ [p]) d.closed, p.length, none)
  else (d, p.length, none)

/-- Counterexample to C4 as stated: with the output channel already
holding ten chunks, the channel-based device Write returns the full
length two and no error for the valid buffer 0x01, 0x00, yet the
buffer is nowhere in the device state afterward: the validated input
was silently discarded rather than blocked on. -/
theorem c4_counterexample :
    deviceWrite (ChanDevice.mk [] (List.replicate 10 [0]) false) [1, 0]
      = (ChanDevice.mk [] (List.replicate 10 [0]) false, 2, none)
    ∧ [1, 0] ∉ (deviceWrite (ChanDevice.mk [] (List.replicate 10 [0]) false) [1, 0]).1.outputData := by
  decide

/-- Per-slot body of chanStreamer.Stream: take the next queued sample
when one is ready, otherwise write a zero pair, for bufLen slots.  The
first component is the channel after the call, the second the filled
buffer. -/
def streamFill : List (ℚ × ℚ) → Nat → List (ℚ × ℚ) × List (ℚ × ℚ)
  | ch, 0 => (ch, [])
  | [], n + 1 =>
      let r := streamFill [] n
      (r.1, ((0:ℚ), (0:ℚ)) :: r.2)
  | smp :: ch, n + 1 =>
      let r := streamFill ch n
      (r.1, smp :: r.2)

/-- Stream method of chanStreamer: fill every slot of the buffer and
return the buffer length together with true. -/
def chanStreamerStream (ch : List (ℚ × ℚ)) (bufLen : Nat) :
    List (ℚ × ℚ) × List (ℚ × ℚ) × Nat × Bool :=
  ((streamFill ch bufLen).1, (streamFill ch bufLen).2, bufLen, true)

/-- Flush method of chanStreamer: drain the channel until the
non-blocking receive finds it empty. -/
def chanStreamerFlush : List (ℚ × ℚ) → List (ℚ × ℚ)
  | [] => []
  | _ :: rest => chanStreamerFlush rest

/-- Err method of chanStreamer, constantly nil. -/
def chanStreamerErr : Option String := none

/-- ClearOutputBuffer of the beep-based bridge delegates to the
playback streamer Flush. -/
def clearOutputBuffer (playCh : List (ℚ × ℚ)) : List (ℚ × ℚ) :=
  chanStreamerFlush playCh

/-- Output half of the ringbuffer device processAudio: read at most
the needed bytes from the playback buffer, zero-fill the shortfall,
and decode every output slot by 1 / 32767 scaling. -/
def processAudioOutputRb (playback : List Nat) (outLen : Nat) : List Nat × List ℚ :=
  let bytesNeeded := 2 * outLen
  let bytesToRead := min playback.length bytesNeeded
  let pcmBuf := playback.take bytesToRead ++ List.replicate (bytesNeeded - bytesToRead) 0
  (playback.drop bytesToRead,
   (List.range outLen).map (fun i =>
     pcm16ToFloat32767 (toInt16 (uint16LE (pcmBuf.getD (2 * i) 0) (pcmBuf.getD (2 * i + 1) 0)))))

/-- Loop of the channel-based device output decode: slot i of the
output is overwritten while the chunk still covers byte 2i+1 and kept
as it was otherwise, exactly the loop condition i*2+1 < len(pcm16Data)
of processAudio. -/
def writeSlots (chunk : List Nat) : Nat → List ℚ → List ℚ
  | _, [] => []
  | i, s :: rest =>
      (if 2 * i + 1 < chunk.length
       then pcm16ToFloat32767 (toInt16 (uint16LE (chunk.getD (2 * i) 0) (chunk.getD (2 * i + 1) 0)))
       else s) :: writeSlots chunk (i + 1) rest

/-- Output half of the channel-based device processAudio: when a chunk
is ready, overwrite only the output slots the chunk covers, leaving
the rest of the buffer as it was; only when no chunk is ready is the
whole buffer zeroed. -/
def processAudioOutputChanDev (outputData : List (List Nat)) (prevOut : List ℚ) :
    List (List Nat) × List ℚ :=
  match outputData with
  | chunk :: rest => (rest, writeSlots chunk 0 prevOut)
  | [] => ([], prevOut.map (fun _ => 0))

/-- Specification-level decode of a PCM16 byte list into the floats
the ringbuffer and channel devices produce: consecutive little-endian
byte pairs, each divided by 32767.  Used to state what the ringbuffer
output loop computes. -/
def decodePairs32767 : List Nat → List ℚ
  | lo :: hi :: rest => pcm16ToFloat32767 (toInt16 (uint16LE lo hi)) :: decodePairs32767 rest
  | _ => []

/-- Characterization of streamFill: the available prefix of the
channel followed by zero padding, the channel keeping the rest. -/
theorem streamFill_spec : ∀ (n : Nat) (ch : List (ℚ × ℚ)),
    streamFill ch n
      = (ch.drop n, ch.take n ++ List.replicate (n - ch.length) ((0:ℚ), (0:ℚ)))
  | 0, ch => by simp [streamFill]
  | n + 1, [] => by
      simp [streamFill, streamFill_spec n [], List.replicate_succ]
  | n + 1, smp :: ch => by
      simp [streamFill, streamFill_spec n ch, Nat.succ_sub_succ]

/-- Flush always leaves the channel empty. -/
theorem chanStreamerFlush_eq_nil : ∀ ch : List (ℚ × ℚ), chanStreamerFlush ch = []
  | [] => rfl
  | _ :: rest => chanStreamerFlush_eq_nil rest

/-- Mapping a constantly-zero function over a range gives replicated
zeros. -/
theorem map_range_zero (n : Nat) (g : Nat → ℚ) (h : ∀ i, g i = 0) :
    (List.range n).map g = List.replicate n (0:ℚ) := by
  induction n with
  | zero => simp
  | succ k ih =>
      rw [List.range_succ, List.map_append, ih, List.replicate_succ']
      simp [h]

/-- Reading a replicated-zero byte buffer with a zero default always
gives zero. -/
theorem getD_replicate_zero (k j : Nat) : (List.replicate k (0:Nat)).getD j 0 = 0 := by
  induction k generalizing j with
  | zero => simp
  | succ m ih =>
      cases j with
      | zero => simp [List.replicate_succ]
      | succ j => simp only [List.replicate_succ, List.getD_cons_succ]; exact ih j

/-- Splitting a decode at an even byte boundary splits the sample
list. -/
theorem decodePairs32767_append : ∀ (a : Nat) (xs ys : List Nat), xs.length = 2 * a →
    decodePairs32767 (xs ++ ys) = decodePairs32767 xs ++ decodePairs32767 ys
  | 0, xs, ys => fun h => by
      have hx : xs = [] := List.length_eq_zero.mp (by omega)
      subst hx
      simp [decodePairs32767]
  | a + 1, [], ys => fun h => by simp at h
  | a + 1, [_], ys => fun h => by simp at h; omega
  | a + 1, lo :: hi :: rest, ys => fun h => by
      have hr : rest.length = 2 * a := by simp at h; omega
      simp only [List.cons_append, decodePairs32767, List.append_eq]
      rw [decodePairs32767_append a rest ys hr]

/-- Decoding an even number of zero bytes yields zero samples. -/
theorem decodePairs32767_replicate_zero : ∀ k : Nat,
    decodePairs32767 (List.replicate (2 * k) 0) = List.replicate k 0
  | 0 => by simp [decodePairs32767]
  | k + 1 => by
      have h2 : 2 * (k + 1) = 2 * k + 1 + 1 := by ring
      rw [h2, List.replicate_succ, List.replicate_succ]
      have h0 : toInt16 (uint16LE 0 0) = 0 := by decide
      simp only [decodePairs32767, decodePairs32767_replicate_zero k, h0,
        List.replicate_succ, pcm16ToFloat32767]
      norm_num

/-- Per-slot decode over the output indices equals the pairwise decode
of the byte buffer, for a buffer holding exactly the needed bytes. -/
theorem range_map_decode : ∀ (m : Nat) (buf : List Nat), buf.length = 2 * m →
    (List.range m).map (fun i =>
      pcm16ToFloat32767 (toInt16 (uint16LE (buf.getD (2 * i) 0) (buf.getD (2 * i + 1) 0))))
    = decodePairs32767 buf
  | 0, buf => fun h => by
      have hb : buf = [] := List.length_eq_zero.mp (by omega)
      subst hb
      simp [decodePairs32767]
  | m + 1, [] => fun h => by simp at h
  | m + 1, [_] => fun h => by simp at h; omega
  | m + 1, lo :: hi :: rest => fun h => by
      have hr : rest.length = 2 * m := by simp at h; omega
      rw [List.range_succ_eq_map, List.map_cons, List.map_map]
      have htail : ∀ i ∈ List.range m,
          ((fun i => pcm16ToFloat32767 (toInt16 (uint16LE ((lo :: hi :: rest).getD (2 * i) 0)
              ((lo :: hi :: rest).getD (2 * i + 1) 0)))) ∘ Nat.succ) i
          = pcm16ToFloat32767 (toInt16 (uint16LE (rest.getD (2 * i) 0)
              (rest.getD (2 * i + 1) 0))) := by
        intro i _
        have e1 : 2 * Nat.succ i = 2 * i + 1 + 1 := by omega
        have e2 : 2 * Nat.succ i + 1 = 2 * i + 1 + 1 + 1 := by omega
        simp only [Function.comp_apply, e1, e2, List.getD_cons_succ]
      rw [List.map_congr_left htail]
      rw [range_map_decode m rest hr]
      simp [decodePairs32767]

/-- Claim C6 (amended): the chanStreamer fills its whole buffer every
call with the available samples followed by zero padding, and the
ringbuffer device fills every output slot the same way: for a playback
buffer holding a whole samples with a at most the period, the output
is the decode of those a samples followed by zero-value silence for
the remaining slots, all silence when the buffer is empty; the
channel-based device instead leaves output slots beyond a short chunk
as they were. -/
theorem c6_full_period_output :
    (∀ (ch : List (ℚ × ℚ)) (n : Nat),
       chanStreamerStream ch n
         = (ch.drop n, ch.take n ++ List.replicate (n - ch.length) ((0:ℚ), (0:ℚ)), n, true))
    ∧ (∀ outLen : Nat, processAudioOutputRb [] outLen = ([], List.replicate outLen 0))
    ∧ (∀ (pb : List Nat) (outLen : Nat), (processAudioOutputRb pb outLen).2.length = outLen)
    ∧ (∀ (pb : List Nat) (a outLen : Nat), pb.length = 2 * a → a ≤ outLen →
        processAudioOutputRb pb outLen
          = ([], decodePairs32767 pb ++ List.replicate (outLen - a) 0)) := by
  refine ⟨?_, ?_, ?_, ?_⟩
  · intro ch n
    rw [chanStreamerStream, streamFill_spec n ch]
  · intro outLen
    unfold processAudioOutputRb
    simp only [List.length_nil, Nat.zero_min, List.take_nil, List.drop_nil,
      List.nil_append, Nat.sub_zero]
    refine congrArg (Prod.mk []) ?_
    refine map_range_zero outLen _ ?_
    intro i
    rw [getD_replicate_zero, getD_replicate_zero]
    have h0 : toInt16 (uint16LE 0 0) = 0 := by decide
    rw [h0]
    simp [pcm16ToFloat32767]
  · intro pb outLen
    simp [processAudioOutputRb]
  · intro pb a outLen hlen hle
    have hmin : min pb.length (2 * outLen) = pb.length := by omega
    simp only [processAudioOutputRb, hmin, List.take_length, List.drop_length]
    rw [hlen]
    have h2 : 2 * outLen - 2 * a = 2 * (outLen - a) := by omega
    rw [h2]
    have hbuflen : (pb ++ List.replicate (2 * (outLen - a)) 0).length = 2 * outLen := by
      simp only [List.length_append, List.length_replicate]
      omega
    rw [range_map_decode outLen _ hbuflen]
    rw [decodePairs32767_append a pb (List.replicate (2 * (outLen - a)) 0) hlen]
    rw [decodePairs32767_replicate_zero]

/-- Witness for C6 at a playback buffer holding one sample and a
two-slot period: one decoded sample, then one slot of silence. -/
theorem c6_full_period_output_witness :
    ([1, 0] : List Nat).length = 2 * 1 ∧ 1 ≤ 2
    ∧ processAudioOutputRb [1, 0] 2
        = ([], decodePairs32767 [1, 0] ++ List.replicate (2 - 1) 0) :=
  ⟨rfl, by decide, c6_full_period_output.2.2.2 [1, 0] 1 2 rfl (by decide)⟩

/-- Counterexample to C6 as stated: the channel-based device, handed a
one-sample chunk while the period has two output slots and the output
buffer still holds stale values 5 and 7, decodes only the first slot
and leaves the stale 7 in the second slot instead of zero padding. -/
theorem c6_counterexample :
    processAudioOutputChanDev [[0, 0]] [5, 7] = ([], [0, 7])
    ∧ (processAudioOutputChanDev [[0, 0]] [5, 7]).2 ≠ [0, 0] := by
  have h0 : toInt16 (uint16LE 0 0) = 0 := by decide
  have heq : processAudioOutputChanDev [[0, 0]] [5, 7] = ([], [0, 7]) := by
    simp [processAudioOutputChanDev, writeSlots, h0, pcm16ToFloat32767]
  refine ⟨heq, ?_⟩
  rw [heq]
  norm_num

/-- Claim C7: Flush discards every queued sample, ClearOutputBuffer
does the same through the streamer, and the very next Stream pull on
the flushed channel obtains no real samples, only zero padding. -/
theorem c7_flush_discards_all :
    ∀ (ch : List (ℚ × ℚ)) (n : Nat),
      chanStreamerFlush ch = []
      ∧ clearOutputBuffer ch = []
      ∧ (chanStreamerStream (chanStreamerFlush ch) n).2.1 = List.replicate n ((0:ℚ), (0:ℚ)) := by
  intro ch n
  have h := chanStreamerFlush_eq_nil ch
  refine ⟨h, h, ?_⟩
  rw [h]
  simp [chanStreamerStream, streamFill_spec n []]

/-- Claim C9: the playback streamer reports a full buffer and true on
every call whatever the channel holds, its output really has the full
length, and Err is always nil, so the speaker-facing stream never
terminates on its own. -/
theorem c9_stream_never_ends :
    ∀ (ch : List (ℚ × ℚ)) (n : Nat),
      (chanStreamerStream ch n).2.2.1 = n
      ∧ (chanStreamerStream ch n).2.2.2 = true
      ∧ (chanStreamerStream ch n).2.1.length = n
      ∧ chanStreamerErr = none := by
  intro ch n
  refine ⟨rfl, rfl, ?_, rfl⟩
  simp [chanStreamerStream, streamFill_spec n ch]
  omega

/-- Non-blocking send of one whole chunk into a buffered Go channel of
the given capacity, as in the select with a default branch inside
processAudio of the channel-based device: the chunk is enqueued whole
when a slot is free and dropped whole otherwise; the second component
counts the samples accepted. -/
def tryPushChunk (cap : Nat) (st : List (List Nat)) (c : List Nat) :
    List (List Nat) × Nat :=
  if st.length < cap then (st ++ [c], c.length) else (st, 0)

/-- Capture push of the channel-based device instantiated at the
configured channel capacity of ten chunks. -/
def processAudioInputPush (st : List (List Nat)) (c : List Nat) :
    List (List Nat) × Nat :=
  tryPushChunk chanCap st c

/-- Capture-side transfer of the beep-based bridge captureLoop: the
converted bytes are appended to readBuf with no capacity bound. -/
def captureAppend (readBuf mono : List Nat) : List Nat :=
  readBuf ++ mono

/-- Counterexample to C5 as stated: with capacity four and an empty
channel, pushing the chunk 1 2 3 4 5 accepts all five samples and the
channel then holds five samples in one chunk, not the four-sample
prefix the claim announces. -/
theorem c5_counterexample :
    tryPushChunk 4 [] [1, 2, 3, 4, 5] = ([[1, 2, 3, 4, 5]], 5)
    ∧ (tryPushChunk 4 [] [1, 2, 3, 4, 5]).2 ≠ 4
    ∧ (((tryPushChunk 4 [] [1, 2, 3, 4, 5]).1.map List.length).sum) = 5 := by
  decide

/-- Claim C5 (amended): the chunk channel never exceeds its configured
capacity counted in chunks, and the non-blocking push is all-or-nothing
per chunk: a full channel accepts zero samples and drops the chunk, a
channel with a free slot accepts the entire chunk whatever its sample
count; the capture buffer of the beep-based bridge appends every
sample with no capacity bound at all. -/
theorem c5_tryPush_chunk_granular (cap : Nat) (st : List (List Nat)) (c : List Nat)
    (h : st.length ≤ cap) :
    (tryPushChunk cap st c).1.length ≤ cap
    ∧ (tryPushChunk cap st c
        = if st.length < cap then (st ++ [c], c.length) else (st, 0))
    ∧ (∀ readBuf mono : List Nat,
        (captureAppend readBuf mono).length = readBuf.length + mono.length) := by
  refine ⟨?_, ?_, ?_⟩
  · unfold tryPushChunk
    split_ifs with hlt
    · simp only [List.length_append, List.length_singleton]
      omega
    · exact h
  · rfl
  · intro readBuf mono
    simp [captureAppend]

/-- Witness for C5 with capacity three, two queued chunks and a
two-sample push. -/
theorem c5_tryPush_chunk_granular_witness :
    ([[1], [2]] : List (List Nat)).length ≤ 3
    ∧ ((tryPushChunk 3 [[1], [2]] [7, 8]).1.length ≤ 3
       ∧ (tryPushChunk 3 [[1], [2]] [7, 8]
           = if ([[1], [2]] : List (List Nat)).length < 3
             then ([[1], [2]] ++ [[7, 8]], ([7, 8] : List Nat).length)
             else ([[1], [2]], 0))
       ∧ (∀ readBuf mono : List Nat,
           (captureAppend readBuf mono).length = readBuf.length + mono.length)) :=
  ⟨by decide, c5_tryPush_chunk_granular 3 [[1], [2]] [7, 8] (by decide)⟩

/-- Close method of the channel-based device: a second call observes
the closed flag and returns nil immediately; the first call marks the
device closed. -/
def deviceClose (d : ChanDevice) : ChanDevice × Option String :=
  if d.closed then (d, none)
  else (ChanDevice.mk d.inputData d.outputData true, none)

/-- Read method of the channel-based device: closed devices give EOF;
otherwise a ready chunk is copied out, and when no chunk arrives
before the 100 ms timer fires the whole destination is zero-filled and
reported as fully read.  The sequential model renders the timeout
branch as the empty-channel case. -/
def deviceRead (d : ChanDevice) (pLen : Nat) :
    ChanDevice × List Nat × Nat × Option String :=
  if d.closed then (d, [], 0, some eofMsg)
  else
    match d.inputData with
    | data :: rest =>
        (ChanDevice.mk rest d.outputData d.closed, data.take pLen,
         min pLen data.length, none)
    | [] => (d, List.replicate pLen 0, pLen, none)

/-- Claim C8: Close is idempotent, the second call being a no-op that
returns nil, and after Close every Read gives EOF and every Write
gives the closed-pipe error instead of transferring data. -/
theorem c8_close_idempotent_and_final :
    ∀ d : ChanDevice,
      deviceClose (deviceClose d).1 = ((deviceClose d).1, none)
      ∧ (∀ pLen, deviceRead (deviceClose d).1 pLen = ((deviceClose d).1, [], 0, some eofMsg))
      ∧ (∀ p, deviceWrite (deviceClose d).1 p = ((deviceClose d).1, 0, some closedPipeMsg)) := by
  intro d
  obtain ⟨inp, out, c⟩ := d
  cases c <;>
    refine ⟨?_, fun pLen => ?_, fun p => ?_⟩ <;>
      simp [deviceClose, deviceRead, deviceWrite]

/-- Claim C10: on an open channel-based device whose capture channel
stays empty, so that the 100 ms timer fires, Read fills the whole
destination with zero bytes and returns its full length with a nil
error, indistinguishable from real captured audio. -/
theorem c10_timeout_reads_silence (d : ChanDevice) (pLen : Nat)
    (h1 : d.closed = false) (h2 : d.inputData = []) :
    deviceRead d pLen = (d, List.replicate pLen 0, pLen, none) := by
  unfold deviceRead
  rw [h2, if_neg (by rw [h1]; exact Bool.false_ne_true)]

/-- Witness for C10 on an empty open device and a four-byte read. -/
theorem c10_timeout_reads_silence_witness :
    (ChanDevice.mk [] [] false).closed = false
    ∧ (ChanDevice.mk [] [] false).inputData = []
    ∧ deviceRead (ChanDevice.mk [] [] false) 4
        = (ChanDevice.mk [] [] false, List.replicate 4 0, 4, none) :=
  ⟨rfl, rfl, c10_timeout_reads_silence (ChanDevice.mk [] [] false) 4 rfl rfl⟩
